import Mathlib

/-!
Verification of the audio transcription bridge server (`server.py`).

The file shallowly embeds the parts of the source the claims are about:
  * `AudioStream` — the file-like object feeding the Speechmatics SDK
    (`read`, `add_audio_data`, `close`).  Its `queue.Queue` is modelled as a
    FIFO list of `Option Bytes` entries (`none` is the poison pill put by
    `close`); `queue.get(timeout=2.0)` raising `queue.Empty` corresponds to
    the queue being empty, and an arbitrary internal failure of the `try`
    body is modelled by an explicit `GetResult.failed` outcome.
  * `TranscriptionSession` — session recorder with `add_audio_chunk`,
    `add_transcript` and `save_session`.  Timestamps (Python floats formatted
    with two decimals) are modelled as exact centisecond counts; the
    `datetime` start time and strftime string are modelled as an opaque
    string.  File writes are modelled as a list of (filename, content) pairs.
  * `SpeechmaticsHandler` — the registered event handlers and the
    `start_transcription` worker entry point.  External SDK objects are out
    of scope; the handler table and the callback behaviour are embedded.
  * the global `message_queue` / `message_sender_callback` and the polling
    `message_handler` loop body of `websocket_proxy`; queue entries carry a
    ghost origin-session tag so cross-session delivery can be stated.
  * the control flow of `websocket_proxy` as an action trace: greeting
    sends (which happen before the `try`/`finally` and may raise), the
    receive loop, and the `finally` teardown sequence.
-/

/-- Audio payloads: raw byte strings, one `Nat` per byte. -/
abbrev Bytes := List Nat

/-- Python slice index normalisation: the effective split point of `b[:k]` /
`b[k:]` for an arbitrary integer `k` on a sequence of length `len`. -/
def pyIdx (len : Nat) (k : Int) : Nat :=
  if k < 0 then ((len : Int) + k).toNat else min k.toNat len

/-- Python `b[:k]` for an arbitrary integer `k`. -/
def pyTake (b : Bytes) (k : Int) : Bytes := b.take (pyIdx b.length k)

/-- Python `b[k:]` for an arbitrary integer `k`. -/
def pyDrop (b : Bytes) (k : Int) : Bytes := b.drop (pyIdx b.length k)

/-- `b'\x00\x00' * int(16000 * 0.1)` — in Python `int(16000 * 0.1) = 1600`,
so this is 1600 copies of two zero bytes. -/
def silence : Bytes := (List.replicate 1600 ([0, 0] : Bytes)).flatten

/-- State of `AudioStream`: the `queue.Queue` contents in FIFO order
(`none` is the poison pill), the remainder buffer, and the closed flag. -/
structure AudioStream where
  audio_queue : List (Option Bytes)
  current_buffer : Bytes
  closed : Bool
deriving DecidableEq

/-- `AudioStream.__init__`: empty queue, empty buffer, open. -/
def AudioStream.init : AudioStream :=
  { audio_queue := [], current_buffer := [], closed := false }

/-- Outcome of the `self.audio_queue.get(timeout=2.0)` call inside `read`'s
`try` block: an item was obtained, the 2-second timeout elapsed
(`queue.Empty`), or some other internal exception occurred. -/
inductive GetResult
  | item (x : Option Bytes)
  | timedOut
  | failed
deriving DecidableEq

/-- Exceptions that the `try` body of `read` can raise. -/
inductive PyExc
  | queueEmpty
  | other
deriving DecidableEq

/-- The deterministic outcome of `queue.get(timeout=2.0)` in the
single-threaded model: the head of the queue if one is present, otherwise
the timeout. -/
def AudioStream.defaultGet (s : AudioStream) : GetResult :=
  match s.audio_queue with
  | [] => GetResult.timedOut
  | x :: _ => GetResult.item x

/-- The `try` block of `AudioStream.read`: get an item from the queue
(possibly raising), handle the poison pill, and slice the obtained chunk
against the requested size exactly as the source does. -/
def AudioStream.readTryBody (s : AudioStream) (size : Int) (g : GetResult) :
    Except PyExc (Bytes × AudioStream) :=
  match g with
  | GetResult.timedOut => Except.error PyExc.queueEmpty
  | GetResult.failed => Except.error PyExc.other
  | GetResult.item x =>
    let rest := s.audio_queue.tail
    match x with
    | none => Except.ok ([], { s with audio_queue := rest, closed := true })
    | some new_data =>
      if size = -1 ∨ (new_data.length : Int) ≤ size then
        Except.ok (new_data, { s with audio_queue := rest })
      else
        Except.ok (pyTake new_data size,
          { s with audio_queue := rest, current_buffer := pyDrop new_data size })

/-- `AudioStream.read` in full, with its `except` clauses, in exception-passing
style: an `Except.error` result would mean an exception escaped `read`
uncaught (the totality theorem shows this never happens). -/
def AudioStream.readExc (s : AudioStream) (size : Int) (g : GetResult) :
    Except PyExc (Bytes × AudioStream) :=
  if s.closed then Except.ok ([], s)
  else if s.current_buffer ≠ [] then
    if size = -1 ∨ (s.current_buffer.length : Int) ≤ size then
      Except.ok (s.current_buffer, { s with current_buffer := [] })
    else
      Except.ok (pyTake s.current_buffer size,
        { s with current_buffer := pyDrop s.current_buffer size })
  else
    match s.readTryBody size g with
    | Except.ok r => Except.ok r
    | Except.error PyExc.queueEmpty => Except.ok (silence, s)
    | Except.error PyExc.other => Except.ok ([], { s with closed := true })

/-- `AudioStream.read` with the deterministic queue outcome.  The
`Except.error` fallback is unreachable (`read` catches everything). -/
def AudioStream.read (s : AudioStream) (size : Int) : Bytes × AudioStream :=
  match s.readExc size s.defaultGet with
  | Except.ok r => r
  | Except.error _ => ([], s)

/-- `AudioStream.add_audio_data`: enqueue the chunk unless closed. -/
def AudioStream.add_audio_data (s : AudioStream) (data : Bytes) : AudioStream :=
  if ¬ s.closed then { s with audio_queue := s.audio_queue ++ [some data] } else s

/-- `AudioStream.close`: set the closed flag and put the poison pill. -/
def AudioStream.close (s : AudioStream) : AudioStream :=
  { s with closed := true, audio_queue := s.audio_queue ++ [none] }

/-- Client-visible operations on an open stream, for whole-run statements. -/
inductive Op
  | push (chunk : Bytes)
  | pull (size : Int)
deriving DecidableEq

/-- Run a sequence of pushes (`add_audio_data`) and pulls (`read`) against a
stream, recording each pull's requested size and returned bytes. -/
def runOps : AudioStream → List Op → List (Int × Bytes) × AudioStream
  | s, [] => ([], s)
  | s, Op.push c :: rest => runOps (s.add_audio_data c) rest
  | s, Op.pull sz :: rest =>
    let r := s.read sz
    let t := runOps r.2 rest
    ((sz, r.1) :: t.1, t.2)

/-- True when every pull in the run finds data available (remainder buffer or
queue non-empty), i.e. no pull hits the 2-second timeout. -/
def availRun : AudioStream → List Op → Bool
  | _, [] => true
  | s, Op.push c :: rest => availRun (s.add_audio_data c) rest
  | s, Op.pull sz :: rest =>
    (decide (s.current_buffer ≠ []) || decide (s.audio_queue ≠ [])) &&
      availRun (s.read sz).2 rest

/-- The chunks pushed by a run, in order. -/
def pushedChunks : List Op → List Bytes
  | [] => []
  | Op.push c :: rest => c :: pushedChunks rest
  | Op.pull _ :: rest => pushedChunks rest

/-- All data bytes held in the queue, in order (pills carry none). -/
def queueBytes : List (Option Bytes) → Bytes
  | [] => []
  | none :: rest => queueBytes rest
  | some b :: rest => b ++ queueBytes rest

/-- All bytes a stream still holds: remainder buffer first, then the queue. -/
def contentOf (s : AudioStream) : Bytes :=
  s.current_buffer ++ queueBytes s.audio_queue

/-- Concatenation of the bytes returned by the recorded pulls. -/
def outsBytes (l : List (Int × Bytes)) : Bytes :=
  (l.map Prod.snd).flatten

/-- A transcript entry as stored by `TranscriptionSession.add_transcript`.
The timestamp (`(datetime.now() - self.start_time).total_seconds()`, a float
rendered later with two decimals) is modelled exactly in centiseconds. -/
structure TranscriptEntry where
  timestamp : Nat
  text : String
  is_partial : Bool
deriving DecidableEq

/-- `TranscriptionSession` state: identifier, start time (modelled as the
already-formatted `'%Y%m%d_%H%M%S'` string used in filenames), the two
append-only lists, and the fixed audio format fields. -/
structure TranscriptionSession where
  session_id : String
  start_time : String
  audio_chunks : List Bytes
  transcripts : List TranscriptEntry
  sample_rate : Nat
  channels : Nat
  sample_width : Nat
deriving DecidableEq

/-- `TranscriptionSession.__init__`. -/
def TranscriptionSession.init (session_id : String) (start_time : String) :
    TranscriptionSession :=
  { session_id := session_id, start_time := start_time,
    audio_chunks := [], transcripts := [],
    sample_rate := 16000, channels := 1, sample_width := 2 }

/-- `TranscriptionSession.add_audio_chunk`. -/
def TranscriptionSession.add_audio_chunk (s : TranscriptionSession) (chunk : Bytes) :
    TranscriptionSession :=
  { s with audio_chunks := s.audio_chunks ++ [chunk] }

/-- `TranscriptionSession.add_transcript`; `now` is the elapsed time since
session start in centiseconds (the model of `datetime.now() - start_time`). -/
def TranscriptionSession.add_transcript (s : TranscriptionSession) (text : String)
    (now : Nat) (p : Bool) : TranscriptionSession :=
  { s with transcripts := s.transcripts ++ [{ timestamp := now, text := text, is_partial := p }] }

/-- Mutating calls a session can receive during its lifetime. -/
inductive SessionAct
  | addAudio (chunk : Bytes)
  | addText (text : String) (now : Nat) (p : Bool)

/-- Replay a sequence of recorder calls. -/
def applyActs : TranscriptionSession → List SessionAct → TranscriptionSession
  | s, [] => s
  | s, SessionAct.addAudio c :: rest => applyActs (s.add_audio_chunk c) rest
  | s, SessionAct.addText t n p :: rest => applyActs (s.add_transcript t n p) rest

/-- The WAV file produced through the `wave` module: the parameters set by
`setnchannels`/`setsampwidth`/`setframerate` and the frame bytes written by
successive `writeframes` calls. -/
structure WavFile where
  nchannels : Nat
  sampwidth : Nat
  framerate : Nat
  frames : Bytes
deriving DecidableEq

/-- The `for chunk in self.audio_chunks: wav_file.writeframes(chunk)` loop. -/
def writeFrames : WavFile → List Bytes → WavFile
  | w, [] => w
  | w, c :: rest => writeFrames { w with frames := w.frames ++ c } rest

/-- Contents of one file written by `save_session`: the WAV container, the
JSON document (modelled structurally: the fields `json.dump` serialises), or
the plain-text transcript. -/
inductive FileContent
  | wav (w : WavFile)
  | jsonDoc (session_id : String) (start_time : String) (transcripts : List TranscriptEntry)
  | txt (text : String)
deriving DecidableEq

/-- Rendering of the centisecond timestamp as Python's `f"{t:.2f}"` renders
the corresponding float: integral seconds, a dot, two decimal digits. -/
def format2f (t : Nat) : String :=
  toString (t / 100) ++ "." ++ (if t % 100 < 10 then "0" else "") ++ toString (t % 100)

/-- One line of the plain-text transcript: `f"[{timestamp:.2f}s] {text}\n"`. -/
def transcriptLine (e : TranscriptEntry) : String :=
  "[" ++ format2f e.timestamp ++ "s] " ++ e.text ++ "\n"

/-- The text-file write loop: `for entry in self.transcripts: if not
entry['is_partial']: f.write(...)`. -/
def transcriptTxtLoop : List TranscriptEntry → String → String
  | [], acc => acc
  | e :: rest, acc =>
    transcriptTxtLoop rest (if TranscriptEntry.is_partial e then acc else acc ++ transcriptLine e)

/-- `TranscriptionSession.save_session`: returns the list of file writes (in
the order the source performs them) together with the returned filename
triple.  `base_filename` is derived from the session start time, and three
files are written: the WAV audio, the JSON transcript document (which embeds
the session id), and the plain-text transcript. -/
def TranscriptionSession.save_session (s : TranscriptionSession) (output_dir : String) :
    List (String × FileContent) × (String × String × String) :=
  let base_filename := output_dir ++ "/session_" ++ s.start_time
  let audio_filename := base_filename ++ ".wav"
  let wav_file := writeFrames
    { nchannels := s.channels, sampwidth := s.sample_width,
      framerate := s.sample_rate, frames := [] } s.audio_chunks
  let transcript_filename := base_filename ++ "_transcript.json"
  let text_filename := base_filename ++ "_transcript.txt"
  ([(audio_filename, FileContent.wav wav_file),
    (transcript_filename, FileContent.jsonDoc s.session_id s.start_time s.transcripts),
    (text_filename, FileContent.txt (transcriptTxtLoop s.transcripts ""))],
   (audio_filename, transcript_filename, text_filename))

/-- The Speechmatics server message variants relevant to the bridge. -/
inductive ServerMessageType
  | AddTranscript
  | AddPartialTranscript
  | Error
  | RecognitionStarted
  | EndOfTranscript
deriving DecidableEq

/-- An engine message as the handlers read it: the transcript text extracted
by `msg.get("metadata", {}).get("transcript", "")` and the optional error
reason read by `msg.get('reason', 'Unknown error')`. -/
structure EngineMsg where
  transcript : String
  reason : Option String
deriving DecidableEq

/-- A registered event handler: given the message, the current elapsed time
(centiseconds) and the session, it returns the updated session and the
messages sent through `send_message_callback`. -/
abbrev Handler := EngineMsg → Nat → TranscriptionSession → TranscriptionSession × List String

/-- `SpeechmaticsHandler._handle_transcript`. -/
def handle_transcript (msg : EngineMsg) (p : Bool) (now : Nat)
    (s : TranscriptionSession) : TranscriptionSession × List String :=
  let transcript := msg.transcript
  if transcript.trim ≠ "" then
    let s2 := s.add_transcript transcript now p
    if p then (s2, ["[partial] " ++ transcript]) else (s2, [transcript])
  else (s, [])

/-- `SpeechmaticsHandler.setup_event_handlers`: the four registrations the
source performs, in order. -/
def setup_event_handlers : List (ServerMessageType × Handler) :=
  [(ServerMessageType.AddTranscript, fun msg now s => handle_transcript msg false now s),
   (ServerMessageType.AddPartialTranscript, fun msg now s => handle_transcript msg true now s),
   (ServerMessageType.Error,
     fun msg _ s => (s, ["Error: " ++ msg.reason.getD "Unknown error"])),
   (ServerMessageType.RecognitionStarted,
     fun _ _ s => (s, ["🎤 Transcription started - speak now!"]))]

/-- Deliver an engine event: run every handler registered for its variant
(none, for unregistered variants such as `EndOfTranscript`). -/
def emit (t : ServerMessageType) (msg : EngineMsg) (now : Nat)
    (s : TranscriptionSession) : TranscriptionSession × List String :=
  (setup_event_handlers.filter (fun h => h.1 == t)).foldl
    (fun acc h =>
      let r := h.2 msg now acc.1
      (r.1, acc.2 ++ r.2)) (s, [])

/-- The outcome of the blocking `client.run_synchronously(...)` call (and of
the client construction preceding it) inside `start_transcription`'s `try`. -/
inductive RunOutcome
  | ok
  | raises (msg : String)

/-- Entries of the global `message_queue`: the message string, tagged with a
ghost identifier of the session whose worker produced it (the tag exists
only in the model; the queue itself stores plain strings). -/
abbrev MsgQueue := List (String × String)

/-- `message_sender_callback`: put the message on the global queue. -/
def message_sender_callback (message_queue : MsgQueue) (origin message : String) :
    MsgQueue :=
  message_queue ++ [(origin, message)]

/-- A delivery performed by a session's `message_handler`: which session's
client received the message, and which session's worker originated it. -/
structure Delivery where
  receiver : String
  origin : String
  message : String
deriving DecidableEq

/-- One iteration of `websocket_proxy.message_handler`'s polling body:
`message_queue.get_nowait()` pops the global head (whatever its origin) and
sends it to this session's client; an empty queue is skipped. -/
def message_handler_poll (message_queue : MsgQueue) (receiver : String) :
    Option Delivery × MsgQueue :=
  match message_queue with
  | [] => (none, message_queue)
  | (o, m) :: rest => (some { receiver := receiver, origin := o, message := m }, rest)

/-- `SpeechmaticsHandler.start_transcription`, as a function of the blocking
call's outcome: on an exception it appends exactly one error message to the
global queue and returns; `Except.ok` models that no exception escapes. -/
def start_transcription (message_queue : MsgQueue) (origin : String)
    (outcome : RunOutcome) : Except String MsgQueue :=
  match outcome with
  | RunOutcome.ok => Except.ok message_queue
  | RunOutcome.raises msg =>
    Except.ok (message_sender_callback message_queue origin ("Transcription error: " ++ msg))

/-- `SpeechmaticsHandler.stop_transcription`: close the audio stream. -/
def stop_transcription (s : AudioStream) : AudioStream := s.close

/-- Observable actions of the `websocket_proxy` coroutine, in program order. -/
inductive BridgeAction
  | acceptConn
  | sendText (msg : String)
  | sendRaised
  | feedChunk (chunk : Bytes)
  | closeBuffer
  | cancelMessageTask
  | awaitWorker (timeoutSecs : Nat) (exited : Bool)
  | shutdownExecutor
  | saveSession
  | notifyClient (msg : String) (delivered : Bool)
deriving DecidableEq

/-- Why the receive loop of `websocket_proxy` ended. -/
inductive ExitReason
  | disconnect
  | wsError (e : String)
deriving DecidableEq

/-- The `finally` block of `websocket_proxy`, in source order:
`stop_transcription` (closes the relay buffer), cancel the message task,
`transcription_future.result(timeout=2.0)` inside `try/except` (`exited`
records whether the worker finished in time; either way execution
continues), executor shutdown, `session.save_session()`, and the best-effort
`SESSION_ENDED` notification (`delivered` records whether the send
succeeded; a failure is swallowed). -/
def websocket_teardown (workerExited delivered : Bool) (session_id : String) :
    List BridgeAction :=
  [BridgeAction.closeBuffer,
   BridgeAction.cancelMessageTask,
   BridgeAction.awaitWorker 2 workerExited,
   BridgeAction.shutdownExecutor,
   BridgeAction.saveSession,
   BridgeAction.notifyClient ("SESSION_ENDED:" ++ session_id) delivered]

/-- The part of `websocket_proxy` before the `try`/`finally` plus the receive
loop: accept, two greeting sends, then the received chunks fed to the
handler. -/
def websocket_mainphase (chunks : List Bytes) (session_id : String) : List BridgeAction :=
  BridgeAction.acceptConn ::
    BridgeAction.sendText "Connected to server successfully!" ::
      BridgeAction.sendText ("Using session ID: " ++ session_id) ::
        chunks.map BridgeAction.feedChunk

/-- Full action trace of one `websocket_proxy` call.  `g1`/`g2` record
whether the two greeting `send_text` calls succeed: they run before the
`try` statement, so if either raises (the client is already gone) the
coroutine exits at once and the `finally` teardown never runs.  Otherwise
the receive loop runs until `e` (disconnect or error) and the teardown
follows. -/
def websocket_proxy_trace (g1 g2 : Bool) (chunks : List Bytes) (e : ExitReason)
    (workerExited delivered : Bool) (session_id : String) : List BridgeAction :=
  BridgeAction.acceptConn ::
    (if g1 then
      BridgeAction.sendText "Connected to server successfully!" ::
        (if g2 then
          BridgeAction.sendText ("Using session ID: " ++ session_id) ::
            (chunks.map BridgeAction.feedChunk ++
              websocket_teardown workerExited delivered session_id)
        else [BridgeAction.sendRaised])
    else [BridgeAction.sendRaised])

/-- Recogniser for the finalization action. -/
def isSaveAction : BridgeAction → Bool
  | BridgeAction.saveSession => true
  | _ => false

theorem pyTake_append_pyDrop (b : Bytes) (k : Int) : pyTake b k ++ pyDrop b k = b :=
  List.take_append_drop _ _

theorem pyTake_length_le (b : Bytes) (k : Int) (hk : 0 ≤ k) :
    ((pyTake b k).length : Int) ≤ k := by
  have h1 : (pyTake b k).length ≤ k.toNat := by
    unfold pyTake pyIdx
    rw [if_neg (not_lt.mpr hk), List.length_take]
    exact le_trans (min_le_left _ _) (min_le_left _ _)
  calc ((pyTake b k).length : Int) ≤ (k.toNat : Int) := Int.ofNat_le.mpr h1
    _ = k := Int.toNat_of_nonneg hk

theorem queueBytes_append_some (q : List (Option Bytes)) (c : Bytes) :
    queueBytes (q ++ [some c]) = queueBytes q ++ c := by
  induction q with
  | nil => simp [queueBytes]
  | cons x rest ih =>
    cases x with
    | none => simpa [queueBytes] using ih
    | some b => simp [queueBytes, ih]

theorem add_audio_data_step (s : AudioStream) (c : Bytes)
    (hc : s.closed = false) (hq : ∀ x ∈ s.audio_queue, x ≠ none) :
    contentOf (s.add_audio_data c) = contentOf s ++ c
    ∧ (s.add_audio_data c).closed = false
    ∧ (∀ x ∈ (s.add_audio_data c).audio_queue, x ≠ none) := by
  refine ⟨?_, ?_, ?_⟩
  · simp [AudioStream.add_audio_data, hc, contentOf, queueBytes_append_some]
  · simp [AudioStream.add_audio_data, hc]
  · intro x hx
    simp [AudioStream.add_audio_data, hc] at hx
    rcases hx with hx | hx
    · exact hq x hx
    · simp [hx]

theorem read_step (s : AudioStream) (sz : Int)
    (hc : s.closed = false)
    (hq : ∀ x ∈ s.audio_queue, x ≠ none)
    (ha : s.current_buffer ≠ [] ∨ s.audio_queue ≠ []) :
    (s.read sz).1 ++ contentOf (s.read sz).2 = contentOf s
    ∧ (s.read sz).2.closed = false
    ∧ (∀ x ∈ (s.read sz).2.audio_queue, x ≠ none)
    ∧ (0 ≤ sz → ((s.read sz).1.length : Int) ≤ sz) := by
  by_cases hb : s.current_buffer = []
  · rcases ha with ha | ha
    · exact absurd hb ha
    cases hqe : s.audio_queue with
    | nil => exact absurd hqe ha
    | cons x rest =>
      cases x with
      | none =>
        exact absurd rfl (hq none (hqe ▸ List.mem_cons_self _ _))
      | some d =>
        by_cases hcond : sz = -1 ∨ ((d.length : Int) ≤ sz)
        · have hread : s.read sz = (d, { s with audio_queue := rest }) := by
            simp [AudioStream.read, AudioStream.readExc, AudioStream.defaultGet,
              AudioStream.readTryBody, hc, hb, hqe, hcond]
          refine ⟨?_, by simp [hread, hc], ?_, ?_⟩
          · simp [hread, contentOf, hb, hqe, queueBytes]
          · intro x hx
            simp [hread] at hx
            exact hq x (hqe ▸ List.mem_cons_of_mem _ hx)
          · intro h0
            rcases hcond with hcond | hcond
            · omega
            · simpa [hread] using hcond
        · have hread : s.read sz = (pyTake d sz,
              { s with audio_queue := rest, current_buffer := pyDrop d sz }) := by
            simp [AudioStream.read, AudioStream.readExc, AudioStream.defaultGet,
              AudioStream.readTryBody, hc, hb, hqe, hcond]
          refine ⟨?_, by simp [hread, hc], ?_, ?_⟩
          · simp only [hread, contentOf, hb, hqe, queueBytes]
            rw [← List.append_assoc, pyTake_append_pyDrop]
            simp
          · intro x hx
            simp [hread] at hx
            exact hq x (hqe ▸ List.mem_cons_of_mem _ hx)
          · intro h0
            simpa [hread] using pyTake_length_le d sz h0
  · by_cases hcond : sz = -1 ∨ ((s.current_buffer.length : Int) ≤ sz)
    · have hread : s.read sz = (s.current_buffer, { s with current_buffer := [] }) := by
        simp [AudioStream.read, AudioStream.readExc, hc, hb, hcond]
      refine ⟨?_, by simp [hread, hc], ?_, ?_⟩
      · simp [hread, contentOf]
      · intro x hx
        simp [hread] at hx
        exact hq x hx
      · intro h0
        rcases hcond with hcond | hcond
        · omega
        · simpa [hread] using hcond
    · have hread : s.read sz = (pyTake s.current_buffer sz,
          { s with current_buffer := pyDrop s.current_buffer sz }) := by
        simp [AudioStream.read, AudioStream.readExc, hc, hb, hcond]
      refine ⟨?_, by simp [hread, hc], ?_, ?_⟩
      · simp only [hread, contentOf]
        rw [← List.append_assoc, pyTake_append_pyDrop]
      · intro x hx
        simp [hread] at hx
        exact hq x hx
      · intro h0
        simpa [hread] using pyTake_length_le s.current_buffer sz h0

theorem runOps_spec (ops : List Op) : ∀ (s : AudioStream),
    s.closed = false → (∀ x ∈ s.audio_queue, x ≠ none) → availRun s ops = true →
    outsBytes (runOps s ops).1 ++ contentOf (runOps s ops).2
        = contentOf s ++ (pushedChunks ops).flatten
    ∧ (∀ p ∈ (runOps s ops).1, 0 ≤ p.1 → ((p.2.length : Int) ≤ p.1)) := by
  induction ops with
  | nil =>
    intro s hc hq ha
    simp [runOps, pushedChunks, outsBytes]
  | cons op rest ih =>
    intro s hc hq ha
    cases op with
    | push c =>
      have hstep := add_audio_data_step s c hc hq
      have ha' : availRun (s.add_audio_data c) rest = true := by
        simpa [availRun] using ha
      have hih := ih (s.add_audio_data c) hstep.2.1 hstep.2.2 ha'
      constructor
      · calc outsBytes (runOps s (Op.push c :: rest)).1
              ++ contentOf (runOps s (Op.push c :: rest)).2
            = outsBytes (runOps (s.add_audio_data c) rest).1
              ++ contentOf (runOps (s.add_audio_data c) rest).2 := by
              simp [runOps]
          _ = contentOf (s.add_audio_data c) ++ (pushedChunks rest).flatten := hih.1
          _ = (contentOf s ++ c) ++ (pushedChunks rest).flatten := by rw [hstep.1]
          _ = contentOf s ++ (pushedChunks (Op.push c :: rest)).flatten := by
              simp [pushedChunks]
      · simpa [runOps] using hih.2
    | pull sz =>
      simp only [availRun, Bool.and_eq_true, Bool.or_eq_true, decide_eq_true_eq] at ha
      obtain ⟨h1, h2⟩ := ha
      have hstep := read_step s sz hc hq h1
      have hih := ih (s.read sz).2 hstep.2.1 hstep.2.2.1 h2
      constructor
      · calc outsBytes (runOps s (Op.pull sz :: rest)).1
              ++ contentOf (runOps s (Op.pull sz :: rest)).2
            = ((s.read sz).1 ++ outsBytes (runOps (s.read sz).2 rest).1)
              ++ contentOf (runOps (s.read sz).2 rest).2 := by
              simp [runOps, outsBytes]
          _ = (s.read sz).1 ++ (outsBytes (runOps (s.read sz).2 rest).1
              ++ contentOf (runOps (s.read sz).2 rest).2) := by
              rw [List.append_assoc]
          _ = (s.read sz).1 ++ (contentOf (s.read sz).2 ++ (pushedChunks rest).flatten) := by
              rw [hih.1]
          _ = ((s.read sz).1 ++ contentOf (s.read sz).2) ++ (pushedChunks rest).flatten := by
              rw [List.append_assoc]
          _ = contentOf s ++ (pushedChunks (Op.pull sz :: rest)).flatten := by
              rw [hstep.1]; simp [pushedChunks]
      · intro p hp
        simp only [runOps] at hp
        rcases List.mem_cons.mp hp with hp | hp
        · intro h0
          subst hp
          exact hstep.2.2.2 h0
        · exact hih.2 p hp

/-- C2: starting from an open, empty `AudioStream`, for every interleaving of
pushes (`add_audio_data`) and pulls (`read`) with arbitrary integer sizes in
which every pull finds data available (no pull hits the 2-second timeout),
the concatenation of all pulled bytes followed by the bytes still held
(remainder buffer, then queue) equals the concatenation of the pushed chunks
in push order — no byte lost, duplicated or reordered; when the stream is
fully drained the pulled bytes equal the pushed bytes exactly; and no pull
with a non-negative requested size returns more than that many bytes. -/
theorem audioStream_fifo (ops : List Op)
    (h : availRun AudioStream.init ops = true) :
    outsBytes (runOps AudioStream.init ops).1
        ++ (runOps AudioStream.init ops).2.current_buffer
        ++ queueBytes (runOps AudioStream.init ops).2.audio_queue
      = (pushedChunks ops).flatten
    ∧ ((runOps AudioStream.init ops).2.current_buffer = [] →
        (runOps AudioStream.init ops).2.audio_queue = [] →
        outsBytes (runOps AudioStream.init ops).1 = (pushedChunks ops).flatten)
    ∧ (∀ p ∈ (runOps AudioStream.init ops).1, 0 ≤ p.1 → ((p.2.length : Int) ≤ p.1)) := by
  have h0 := runOps_spec ops AudioStream.init rfl (by intro x hx; cases hx) h
  have h1 : outsBytes (runOps AudioStream.init ops).1
      ++ ((runOps AudioStream.init ops).2.current_buffer
        ++ queueBytes (runOps AudioStream.init ops).2.audio_queue)
      = (pushedChunks ops).flatten := by
    have := h0.1
    simpa [contentOf, AudioStream.init] using this
  refine ⟨?_, ?_, h0.2⟩
  · rw [List.append_assoc]
    exact h1
  · intro hbuf hqueue
    have := h1
    rw [hbuf, hqueue] at this
    simpa [queueBytes] using this

theorem audioStream_fifo_witness :
    availRun AudioStream.init
        [Op.push [1, 2, 3, 4], Op.pull 3, Op.pull 10, Op.push [5, 6], Op.pull 1] = true
    ∧ outsBytes (runOps AudioStream.init
          [Op.push [1, 2, 3, 4], Op.pull 3, Op.pull 10, Op.push [5, 6], Op.pull 1]).1
        ++ (runOps AudioStream.init
          [Op.push [1, 2, 3, 4], Op.pull 3, Op.pull 10, Op.push [5, 6], Op.pull 1]).2.current_buffer
        ++ queueBytes (runOps AudioStream.init
          [Op.push [1, 2, 3, 4], Op.pull 3, Op.pull 10, Op.push [5, 6], Op.pull 1]).2.audio_queue
      = (pushedChunks
          [Op.push [1, 2, 3, 4], Op.pull 3, Op.pull 10, Op.push [5, 6], Op.pull 1]).flatten :=
  ⟨by decide,
   (audioStream_fifo [Op.push [1, 2, 3, 4], Op.pull 3, Op.pull 10, Op.push [5, 6], Op.pull 1]
      (by decide)).1⟩

theorem flatten_replicate_zero_pair (n : Nat) :
    (List.replicate n ([0, 0] : Bytes)).flatten = List.replicate (2 * n) 0 := by
  induction n with
  | zero => simp
  | succ m ih =>
    have h2 : 2 * (m + 1) = 2 * m + 1 + 1 := by ring
    simp [List.replicate_succ, h2, ih]

/-- C3: a `read` on an open stream with no buffered remainder and no queued
chunk (the 2-second `queue.get` timeout elapses) returns exactly 3200 bytes,
all zero — 100 ms of 16 kHz mono 16-bit silence — and not an empty result;
the stream state is unchanged, so the session stays alive. -/
theorem read_timeout_silence (s : AudioStream) (sz : Int)
    (hc : s.closed = false) (hb : s.current_buffer = []) (hq : s.audio_queue = []) :
    s.read sz = (silence, s)
    ∧ (s.read sz).1.length = 3200
    ∧ (∀ b ∈ (s.read sz).1, b = 0)
    ∧ (s.read sz).1 ≠ [] := by
  have hsil : silence = List.replicate 3200 0 := by
    unfold silence
    rw [flatten_replicate_zero_pair]
  have hr : s.read sz = (silence, s) := by
    simp [AudioStream.read, AudioStream.readExc, AudioStream.defaultGet,
      AudioStream.readTryBody, hc, hb, hq]
  refine ⟨hr, ?_, ?_, ?_⟩
  · rw [hr, hsil]
    exact List.length_replicate 3200 0
  · intro b hb2
    rw [hr, hsil] at hb2
    exact List.eq_of_mem_replicate hb2
  · rw [hr, hsil]
    show List.replicate 3200 (0 : Nat) ≠ []
    intro hcontra
    have hlen : (List.replicate 3200 (0 : Nat)).length = 0 := by
      rw [hcontra]
      rfl
    rw [List.length_replicate] at hlen
    exact absurd hlen (by norm_num)

theorem read_timeout_silence_witness :
    AudioStream.read AudioStream.init 1024 = (silence, AudioStream.init)
    ∧ (AudioStream.read AudioStream.init 1024).1.length = 3200
    ∧ (∀ b ∈ (AudioStream.read AudioStream.init 1024).1, b = 0)
    ∧ (AudioStream.read AudioStream.init 1024).1 ≠ [] :=
  read_timeout_silence AudioStream.init 1024 rfl rfl rfl

/-- C4: after `close()`, a subsequent `add_audio_data` is a no-op that leaves
the stream state untouched (the chunk is rejected at the door, not enqueued
and lost); every subsequent `read` returns the empty byte string immediately
with the state unchanged — never synthesized silence, never blocking; and a
pull already blocked inside `queue.get` that receives the poison pill put by
`close` (`readTryBody` with item `none`) also returns empty at once and
marks the stream closed. -/
theorem close_semantics :
    (∀ (s : AudioStream) (c : Bytes), (s.close).add_audio_data c = s.close)
    ∧ (∀ (s : AudioStream) (sz : Int), (s.close).read sz = ([], s.close))
    ∧ (∀ (s : AudioStream) (sz : Int),
        s.readTryBody sz (GetResult.item none)
          = Except.ok ([], { s with audio_queue := s.audio_queue.tail, closed := true })) := by
  refine ⟨?_, ?_, ?_⟩
  · intro s c
    simp [AudioStream.close, AudioStream.add_audio_data]
  · intro s sz
    simp [AudioStream.read, AudioStream.readExc, AudioStream.close]
  · intro s sz
    simp [AudioStream.readTryBody]

/-- C10: `read` is total.  In exception-passing style (`readExc`, where an
`Except.error` result would be an exception escaping to the caller), every
state, every requested size (including `-1` and other negatives) and every
outcome of the internal `queue.get` call — an item, the timeout, or any
other internal failure — produces an `Except.ok` byte-string result; and the
catch-all failure branch (when no buffered remainder was available) marks
the stream closed and yields the empty result. -/
theorem read_total (s : AudioStream) (sz : Int) (g : GetResult) :
    (∃ r, s.readExc sz g = Except.ok r)
    ∧ (g = GetResult.failed → s.closed = false → s.current_buffer = [] →
        s.readExc sz g = Except.ok ([], { s with closed := true })) := by
  constructor
  · by_cases hc : s.closed
    · exact ⟨([], s), by simp [AudioStream.readExc, hc]⟩
    · by_cases hb : s.current_buffer = []
      · cases g with
        | timedOut =>
          exact ⟨(silence, s), by simp [AudioStream.readExc, AudioStream.readTryBody, hc, hb]⟩
        | failed =>
          exact ⟨([], { s with closed := true }),
            by simp [AudioStream.readExc, AudioStream.readTryBody, hc, hb]⟩
        | item x =>
          cases x with
          | none =>
            exact ⟨([], { s with audio_queue := s.audio_queue.tail, closed := true }),
              by simp [AudioStream.readExc, AudioStream.readTryBody, hc, hb]⟩
          | some d =>
            by_cases hcond : sz = -1 ∨ ((d.length : Int) ≤ sz)
            · exact ⟨(d, { s with audio_queue := s.audio_queue.tail }),
                by simp [AudioStream.readExc, AudioStream.readTryBody, hc, hb, hcond]⟩
            · exact ⟨(pyTake d sz,
                  { s with audio_queue := s.audio_queue.tail, current_buffer := pyDrop d sz }),
                by simp [AudioStream.readExc, AudioStream.readTryBody, hc, hb, hcond]⟩
      · by_cases hcond : sz = -1 ∨ ((s.current_buffer.length : Int) ≤ sz)
        · exact ⟨(s.current_buffer, { s with current_buffer := [] }),
            by simp [AudioStream.readExc, hc, hb, hcond]⟩
        · exact ⟨(pyTake s.current_buffer sz, { s with current_buffer := pyDrop s.current_buffer sz }),
            by simp [AudioStream.readExc, hc, hb, hcond]⟩
  · intro hg hc hb
    subst hg
    simp [AudioStream.readExc, AudioStream.readTryBody, hc, hb]

theorem read_total_witness :
    AudioStream.readExc { audio_queue := [], current_buffer := [], closed := false }
        (-1) GetResult.failed
      = Except.ok ([], { audio_queue := [], current_buffer := [], closed := true }) :=
  (read_total { audio_queue := [], current_buffer := [], closed := false }
    (-1) GetResult.failed).2 rfl rfl rfl

theorem applyActs_fields (acts : List SessionAct) : ∀ (s : TranscriptionSession),
    (applyActs s acts).session_id = s.session_id
    ∧ (applyActs s acts).start_time = s.start_time
    ∧ (applyActs s acts).sample_rate = s.sample_rate
    ∧ (applyActs s acts).channels = s.channels
    ∧ (applyActs s acts).sample_width = s.sample_width := by
  induction acts with
  | nil => intro s; exact ⟨rfl, rfl, rfl, rfl, rfl⟩
  | cons a rest ih =>
    intro s
    cases a with
    | addAudio c =>
      simpa [applyActs, TranscriptionSession.add_audio_chunk]
        using ih (s.add_audio_chunk c)
    | addText t n p =>
      simpa [applyActs, TranscriptionSession.add_transcript]
        using ih (s.add_transcript t n p)

theorem writeFrames_spec (chunks : List Bytes) : ∀ (w : WavFile),
    writeFrames w chunks = { w with frames := w.frames ++ chunks.flatten } := by
  induction chunks with
  | nil => intro w; simp [writeFrames]
  | cons c rest ih =>
    intro w
    simp [writeFrames, ih]

theorem string_join_cons (s : String) (l : List String) :
    String.join (s :: l) = s ++ String.join l := by
  apply String.ext
  rw [String.data_append, String.join_eq, String.join_eq]
  simp

theorem transcriptTxtLoop_spec (l : List TranscriptEntry) : ∀ (acc : String),
    transcriptTxtLoop l acc =
      acc ++ String.join
        ((l.filter (fun e => ! TranscriptEntry.is_partial e)).map transcriptLine) := by
  induction l with
  | nil =>
    intro acc
    simp [transcriptTxtLoop, String.join]
  | cons e rest ih =>
    intro acc
    cases hp : TranscriptEntry.is_partial e with
    | true =>
      simp [transcriptTxtLoop, hp, ih, List.filter_cons]
    | false =>
      simp only [transcriptTxtLoop, hp, Bool.false_eq_true, if_false, ih,
        List.filter_cons, Bool.not_false, if_true, List.map_cons, string_join_cons]
      rw [String.append_assoc]

theorem countP_feed_zero (chunks : List Bytes) :
    (chunks.map BridgeAction.feedChunk).countP isSaveAction = 0 := by
  induction chunks with
  | nil => rfl
  | cons c rest ih => simp [List.countP_cons, isSaveAction, ih]

theorem mainphase_save_count (chunks : List Bytes) (sid : String) :
    (websocket_mainphase chunks sid).countP isSaveAction = 0 := by
  have h1 : websocket_mainphase chunks sid
      = [BridgeAction.acceptConn,
         BridgeAction.sendText "Connected to server successfully!",
         BridgeAction.sendText ("Using session ID: " ++ sid)]
        ++ chunks.map BridgeAction.feedChunk := rfl
  rw [h1, List.countP_append, countP_feed_zero]
  rfl

theorem teardown_save_count (we nd : Bool) (sid : String) :
    (websocket_teardown we nd sid).countP isSaveAction = 1 := rfl

theorem trace_split (chunks : List Bytes) (e : ExitReason) (we nd : Bool) (sid : String) :
    websocket_proxy_trace true true chunks e we nd sid
      = websocket_mainphase chunks sid ++ websocket_teardown we nd sid := by
  simp [websocket_proxy_trace, websocket_mainphase]

theorem trace_save_count (chunks : List Bytes) (e : ExitReason) (we nd : Bool) (sid : String) :
    (websocket_proxy_trace true true chunks e we nd sid).countP isSaveAction = 1 := by
  rw [trace_split, List.countP_append, teardown_save_count, mainphase_save_count]

theorem append_get_right (l1 l2 : List BridgeAction) (m : Nat) :
    (l1 ++ l2)[l1.length + m]? = l2[m]? := by
  induction l1 with
  | nil => simp
  | cons a t ih =>
    have h1 : (a :: t).length + m = (t.length + m) + 1 := by
      simp [List.length_cons]
      omega
    rw [h1]
    simpa using ih

/-- C1 counterexample: the two greeting `send_text` calls run before the
`try`/`finally` of `websocket_proxy`; if the first one raises because the
client already disconnected, the coroutine exits without ever reaching the
teardown, so `save_session` is called zero times on that client-disconnect
exit path — refuting "finalized exactly once on every exit path". -/
theorem greeting_failure_skips_finalize :
    (websocket_proxy_trace false true [] ExitReason.disconnect true true "s").countP
        isSaveAction = 0
    ∧ BridgeAction.saveSession
        ∉ websocket_proxy_trace false true [] ExitReason.disconnect true true "s" := by
  constructor
  · rfl
  · decide

/-- C1 (amended): on every execution that reaches the receive loop's
`try`/`finally` (both greeting sends succeed), for every exit reason
(disconnect or error), every chunk sequence and every worker/notification
outcome, the teardown runs exactly once: `save_session` appears exactly once
in the trace, and the relay buffer close, the 2-second-bounded worker wait,
the finalize, and the best-effort `SESSION_ENDED` notification occur in that
order.  Executions that fail during the pre-loop greeting sends never reach
the teardown at all (see the counterexample). -/
theorem teardown_finalizes_once (chunks : List Bytes) (e : ExitReason)
    (we nd : Bool) (sid : String) :
    (websocket_proxy_trace true true chunks e we nd sid).countP isSaveAction = 1
    ∧ ∃ i j k l : Nat, i < j ∧ j < k ∧ k < l
      ∧ (websocket_proxy_trace true true chunks e we nd sid)[i]?
          = some BridgeAction.closeBuffer
      ∧ (websocket_proxy_trace true true chunks e we nd sid)[j]?
          = some (BridgeAction.awaitWorker 2 we)
      ∧ (websocket_proxy_trace true true chunks e we nd sid)[k]?
          = some BridgeAction.saveSession
      ∧ (websocket_proxy_trace true true chunks e we nd sid)[l]?
          = some (BridgeAction.notifyClient ("SESSION_ENDED:" ++ sid) nd) := by
  refine ⟨trace_save_count chunks e we nd sid, ?_⟩
  refine ⟨(websocket_mainphase chunks sid).length,
    (websocket_mainphase chunks sid).length + 2,
    (websocket_mainphase chunks sid).length + 4,
    (websocket_mainphase chunks sid).length + 5, by omega, by omega, by omega, ?_, ?_, ?_, ?_⟩
  · have h0 := append_get_right (websocket_mainphase chunks sid)
      (websocket_teardown we nd sid) 0
    rw [trace_split]
    simpa using h0
  · have h0 := append_get_right (websocket_mainphase chunks sid)
      (websocket_teardown we nd sid) 2
    rw [trace_split]
    simpa using h0
  · have h0 := append_get_right (websocket_mainphase chunks sid)
      (websocket_teardown we nd sid) 4
    rw [trace_split]
    simpa using h0
  · have h0 := append_get_right (websocket_mainphase chunks sid)
      (websocket_teardown we nd sid) 5
    rw [trace_split]
    simpa using h0

/-- C5 counterexample: `message_queue` is one process-wide queue shared by
every connection.  A message published by session "sessionA"'s worker and
then polled by session "sessionB"'s `message_handler` is sent to session
"sessionB"'s client — an event delivered to a different session than the one
that produced it, refuting session isolation. -/
theorem global_queue_cross_delivery :
    (message_handler_poll (message_sender_callback [] "sessionA" "hello") "sessionB").1
      = some { receiver := "sessionB", origin := "sessionA", message := "hello" }
    ∧ ("sessionB" : String) ≠ "sessionA" := by
  constructor
  · rfl
  · decide

/-- C5 (amended): the event relay is a single global queue shared across
sessions, not per-session state: whichever session's `message_handler` polls
first receives the head message and forwards it to its own client,
regardless of which session's worker published it (delivery is global FIFO,
with no per-session routing). -/
theorem global_queue_delivers_to_poller (o m r : String) (rest : MsgQueue) :
    message_handler_poll ((o, m) :: rest) r
      = (some { receiver := r, origin := o, message := m }, rest)
    ∧ (∀ q : MsgQueue, message_sender_callback q o m = q ++ [(o, m)]) :=
  ⟨rfl, fun _ => rfl⟩

/-- C6: for every session built from `__init__` by any sequence of
`add_audio_chunk`/`add_transcript` calls, `save_session` writes the audio as
a WAV container with exactly 1 channel, 2-byte samples and a 16000 Hz frame
rate whose frame data is the in-order concatenation of all recorded chunks,
and writes a plain-text transcript equal to one line per non-partial entry
in arrival order, each line `[<timestamp with two decimals>s] <text>`
followed by a newline, partial entries excluded (the JSON document, also
written, keeps every entry). -/
theorem save_session_content (id ts : String) (acts : List SessionAct) :
    (applyActs (TranscriptionSession.init id ts) acts).save_session "sessions"
      = ([("sessions" ++ "/session_" ++ ts ++ ".wav",
            FileContent.wav
              { nchannels := 1, sampwidth := 2, framerate := 16000,
                frames :=
                  ((applyActs (TranscriptionSession.init id ts) acts).audio_chunks).flatten }),
          ("sessions" ++ "/session_" ++ ts ++ "_transcript.json",
            FileContent.jsonDoc id ts
              (applyActs (TranscriptionSession.init id ts) acts).transcripts),
          ("sessions" ++ "/session_" ++ ts ++ "_transcript.txt",
            FileContent.txt (String.join
              (((applyActs (TranscriptionSession.init id ts) acts).transcripts.filter
                  (fun e => ! TranscriptEntry.is_partial e)).map transcriptLine)))],
         ("sessions" ++ "/session_" ++ ts ++ ".wav",
          "sessions" ++ "/session_" ++ ts ++ "_transcript.json",
          "sessions" ++ "/session_" ++ ts ++ "_transcript.txt")) := by
  obtain ⟨hid, hts, hsr, hch, hsw⟩ :=
    applyActs_fields acts (TranscriptionSession.init id ts)
  have hid2 : (applyActs (TranscriptionSession.init id ts) acts).session_id = id := hid
  have hts2 : (applyActs (TranscriptionSession.init id ts) acts).start_time = ts := hts
  have hsr2 : (applyActs (TranscriptionSession.init id ts) acts).sample_rate = 16000 := hsr
  have hch2 : (applyActs (TranscriptionSession.init id ts) acts).channels = 1 := hch
  have hsw2 : (applyActs (TranscriptionSession.init id ts) acts).sample_width = 2 := hsw
  simp [TranscriptionSession.save_session, writeFrames_spec, transcriptTxtLoop_spec,
    hid2, hts2, hsr2, hch2, hsw2]

/-- C7 counterexample: on a concrete empty session, `save_session` performs
three writes (WAV, JSON, TXT), not two, so "finalization writes exactly two
objects to the durable sink" is false. -/
theorem save_session_writes_three :
    ¬ (((TranscriptionSession.init "abc" "20260101_000000").save_session "sessions").1.length
        = 2) := by
  decide

/-- C7 (amended): finalization writes exactly three files — the WAV audio,
the JSON transcript document, and the plain-text transcript — and all three
are keyed by the session's start timestamp (`session_<start_time>` under the
output directory), not by the session identifier; the session identifier is
recorded only inside the JSON document's content. -/
theorem save_session_keys (id ts : String) (acts : List SessionAct) :
    ((applyActs (TranscriptionSession.init id ts) acts).save_session "sessions").1.map
        Prod.fst
      = ["sessions" ++ "/session_" ++ ts ++ ".wav",
         "sessions" ++ "/session_" ++ ts ++ "_transcript.json",
         "sessions" ++ "/session_" ++ ts ++ "_transcript.txt"]
    ∧ ((applyActs (TranscriptionSession.init id ts) acts).save_session "sessions").1.length
        = 3
    ∧ ((applyActs (TranscriptionSession.init id ts) acts).save_session "sessions").1[1]?
        = some ("sessions" ++ "/session_" ++ ts ++ "_transcript.json",
            FileContent.jsonDoc id ts
              (applyActs (TranscriptionSession.init id ts) acts).transcripts) := by
  obtain ⟨hid, hts, hsr, hch, hsw⟩ :=
    applyActs_fields acts (TranscriptionSession.init id ts)
  have hid2 : (applyActs (TranscriptionSession.init id ts) acts).session_id = id := hid
  have hts2 : (applyActs (TranscriptionSession.init id ts) acts).start_time = ts := hts
  refine ⟨?_, ?_, ?_⟩
  · simp [TranscriptionSession.save_session, hts2]
  · rfl
  · simp [TranscriptionSession.save_session, hid2, hts2]

/-- C8: if the blocking engine call inside `start_transcription` raises, the
exception is caught: exactly one error-classified message
(`Transcription error: <e>`) is appended to the outbound queue, the function
returns normally (`Except.ok` — nothing propagates to the worker's caller),
and the `websocket_proxy` teardown still performs its single `save_session`
when the connection ends. -/
theorem engine_failure_handled (q : MsgQueue) (origin msg : String)
    (chunks : List Bytes) (e : ExitReason) (we nd : Bool) (sid : String) :
    start_transcription q origin (RunOutcome.raises msg)
      = Except.ok (q ++ [(origin, "Transcription error: " ++ msg)])
    ∧ (websocket_proxy_trace true true chunks e we nd sid).countP isSaveAction = 1 :=
  ⟨rfl, trace_save_count chunks e we nd sid⟩

/-- C9 counterexample: `setup_event_handlers` registers no handler for the
`EndOfTranscript` variant, and emitting `EndOfTranscript` publishes nothing
— no warning event — refuting the claim that a handler is registered and a
warning published. -/
theorem no_end_of_transcript_handler :
    ServerMessageType.EndOfTranscript ∉ setup_event_handlers.map Prod.fst
    ∧ (emit ServerMessageType.EndOfTranscript { transcript := "", reason := none } 0
         (TranscriptionSession.init "s" "t")).2 = [] := by
  constructor
  · simp [setup_event_handlers]
  · rfl

/-- C9 (amended): the worker registers handlers for exactly
`AddTranscript`, `AddPartialTranscript`, `Error` and `RecognitionStarted`,
in that order; `EndOfTranscript` is unregistered, so whenever the engine
emits it the session state is unchanged and no event (warning or otherwise)
is published. -/
theorem end_of_transcript_unhandled (msg : EngineMsg) (now : Nat)
    (s : TranscriptionSession) :
    setup_event_handlers.map Prod.fst
      = [ServerMessageType.AddTranscript, ServerMessageType.AddPartialTranscript,
         ServerMessageType.Error, ServerMessageType.RecognitionStarted]
    ∧ emit ServerMessageType.EndOfTranscript msg now s = (s, []) :=
  ⟨rfl, rfl⟩
